import Mathlib

/-!
Shallow embedding of the clinical-term-to-HPO mapping pipeline in
`src/phenotype_analysis_rag.py` (and the identical similarity conversion in
`mcp_server.py`).  The LLM and the FAISS vector index are external effects;
they are modelled as oracle functions whose results (or failures, as
`Except.error`) parametrise the otherwise deterministic pipeline code.
Python floats are modelled as rationals; Python exceptions as `Except`;
`None`-or-value returns as `Option`.
-/

namespace PhenoRAG

/-- `ClinicalTerm` dataclass (phenotype_analysis_rag.py lines 21-30). -/
structure ClinicalTerm where
  chinese : String
  english : String
  category : String
  confidence : ℚ
  context : String
  severity : String
  temporal : String
deriving DecidableEq

/-- `HPOCandidate` dataclass (lines 32-38). -/
structure HPOCandidate where
  hpo_id : String
  hpo_name : String
  description : String
  score : ℚ
deriving DecidableEq

/-- `HPOMapping` dataclass (lines 40-49). -/
structure HPOMapping where
  original_chinese : String
  english_translation : String
  hpo_id : String
  hpo_name : String
  confidence : ℚ
  context : String
  reasoning : String
deriving DecidableEq

/-- `HPOSelection` pydantic model: the parsed structured output of the
selection LLM call (lines 85-90). -/
structure HPOSelection where
  selected_hpo_id : String
  selected_hpo_name : String
  confidence : ℚ
  reasoning : String
  mapping_quality : String
deriving DecidableEq

/-- `ExtractedSymptom` pydantic model (lines 52-60). -/
structure ExtractedSymptom where
  original_chinese : String
  standardized_chinese : String
  english_translation : String
  category : String
  severity : String
  temporal : String
  context : String
  confidence : ℚ
deriving DecidableEq

/-- `ClinicalSummary` pydantic model (lines 62-70). -/
structure ClinicalSummary where
  constitutional : List String
  respiratory : List String
  cardiovascular : List String
  neurological : List String
  digestive : List String
  musculoskeletal : List String
  dermatological : List String
  other : List String
deriving DecidableEq

/-- `DiagnosticInformation` pydantic model (lines 72-77). -/
structure DiagnosticInformation where
  lab_values : List String
  imaging_findings : List String
  physical_examination : List String
  temporal_information : List String
  severity_indicators : List String
deriving DecidableEq

/-- `SymptomExtractionResult` pydantic model (lines 79-83). -/
structure SymptomExtractionResult where
  extracted_symptoms : List ExtractedSymptom
  clinical_summary : ClinicalSummary
  diagnostic_information : DiagnosticInformation
  processing_notes : String
deriving DecidableEq

/-- The selection LLM round trip (prompt formatting + `llm.invoke` +
`parser.parse` in `RAGBasedSelector.select_best_term`): given the clinical
term, the candidate list and the threshold that are interpolated into the
prompt, it yields a parsed `HPOSelection` or fails (malformed response,
network error, ...). -/
abbrev SelectionOracle :=
  ClinicalTerm → List HPOCandidate → ℚ → Except String HPOSelection

/-- The extraction LLM round trip (prompt formatting + `llm.invoke` +
`parser.parse` in `OpenAIProcessor.extract_and_process_symptoms`). -/
abbrev ExtractionOracle := String → Except String SymptomExtractionResult

/-- `RAGBasedSelector.select_best_term` (lines 224-281).  Empty candidate
list returns `None` before any LLM interaction; an LLM/parse failure is
caught and returns `None`; a parsed confidence below the threshold returns
`None`; otherwise the `HPOMapping` is assembled from the query term and the
parsed selection.  The Python default threshold is 0.7. -/
def select_best_term (oracle : SelectionOracle) (query_term : ClinicalTerm)
    (candidates : List HPOCandidate) (confidence_threshold : ℚ) :
    Option HPOMapping :=
  if candidates.isEmpty then
    none
  else
    match oracle query_term candidates confidence_threshold with
    | .error _ => none
    | .ok result =>
      if confidence_threshold ≤ result.confidence then
        some
          { original_chinese := query_term.chinese
            english_translation := query_term.english
            hpo_id := result.selected_hpo_id
            hpo_name := result.selected_hpo_name
            confidence := result.confidence
            context := query_term.context
            reasoning := result.reasoning }
      else
        none

/-- A FAISS document as consumed by `search_hpo_terms`: `metadata.get` is
modelled by `Option` fields (absent key ⇒ the `'Unknown'` default). -/
structure FAISSDocument where
  meta_id : Option String
  meta_label : Option String
  page_content : String
deriving DecidableEq

/-- `HPOVectorStore` state: whether `load_vectorstore` has succeeded, and
the behaviour of `vectorstore.similarity_search_with_score` (which may
raise, modelled as `Except.error`).  The returned rationals are raw FAISS
distances. -/
structure HPOVectorStore where
  loaded : Bool
  similarity_search_with_score :
    String → Nat → Except String (List (FAISSDocument × ℚ))

/-- The distance-to-similarity conversion `1.0 / (1.0 + score)`
(phenotype_analysis_rag.py line 321 and mcp_server.py line 67). -/
def similarityScore (distance : ℚ) : ℚ := 1 / (1 + distance)

/-- Building one `HPOCandidate` from a FAISS search hit (lines 314-329). -/
def toCandidate (doc : FAISSDocument) (distance : ℚ) : HPOCandidate :=
  { hpo_id := doc.meta_id.getD "Unknown"
    hpo_name := doc.meta_label.getD "Unknown"
    description := doc.page_content
    score := similarityScore distance }

/-- `HPOVectorStore.search_hpo_terms` (lines 304-335).  Raises `ValueError`
when the store is not loaded (outside the `try`); any error raised by the
underlying similarity search is caught and an empty list returned. -/
def search_hpo_terms (store : HPOVectorStore) (query : String) (k : Nat) :
    Except String (List HPOCandidate) :=
  if !store.loaded then
    .error "Vector store not loaded"
  else
    match store.similarity_search_with_score query k with
    | .error _ => .ok []
    | .ok results => .ok (results.map fun r => toCandidate r.1 r.2)

/-- Converting one `ExtractedSymptom` into a `ClinicalTerm`
(lines 167-177). -/
def toClinicalTerm (s : ExtractedSymptom) : ClinicalTerm :=
  { chinese := s.original_chinese
    english := s.english_translation
    category := s.category
    confidence := s.confidence
    context := s.context
    severity := s.severity
    temporal := s.temporal }

/-- Result dictionary of `extract_and_process_symptoms` (lines 179-184). -/
structure ExtractionOutput where
  clinical_terms : List ClinicalTerm
  clinical_summary : ClinicalSummary
  diagnostic_information : DiagnosticInformation
  processing_notes : String
deriving DecidableEq

/-- `OpenAIProcessor.extract_and_process_symptoms` (lines 149-188): a parse
or LLM failure is logged and re-raised, hence propagates as `.error`. -/
def extract_and_process_symptoms (oracle : ExtractionOracle)
    (chinese_text : String) : Except String ExtractionOutput :=
  (oracle chinese_text).map fun result =>
    { clinical_terms := result.extracted_symptoms.map toClinicalTerm
      clinical_summary := result.clinical_summary
      diagnostic_information := result.diagnostic_information
      processing_notes := result.processing_notes }

/-- The external collaborators held by `RAGChineseToHPOTransformer`. -/
structure RAGTransformer where
  extractOracle : ExtractionOracle
  selectOracle : SelectionOracle
  vectorstore : HPOVectorStore

/-- `mapping_summary` dictionary (lines 419-425). -/
structure MappingSummary where
  total_terms : ℕ
  successfully_mapped : ℕ
  high_confidence_mappings : ℕ
  average_confidence : ℚ
  mapping_success_rate : ℚ
deriving DecidableEq

/-- The loop state of `_rag_map_to_hpo_terms` (lines 383-386). -/
structure RagAcc where
  mappings : List HPOMapping
  successful_mappings : ℕ
  high_confidence_mappings : ℕ
  total_confidence : ℚ
deriving DecidableEq

/-- One iteration of the per-term loop of `_rag_map_to_hpo_terms`
(lines 388-416).  The whole body sits in a `try`/`except Exception` that
logs and `continue`s, so a raised retrieval error leaves the state
unchanged; empty candidates `continue`; `select_best_term` is called with
its default threshold 0.7 and `None` also leaves the state unchanged. -/
def rag_map_step (t : RAGTransformer) (acc : RagAcc) (term : ClinicalTerm) :
    RagAcc :=
  match search_hpo_terms t.vectorstore term.english 10 with
  | .error _ => acc
  | .ok candidates =>
    if candidates.isEmpty then
      acc
    else
      match select_best_term t.selectOracle term candidates 0.7 with
      | none => acc
      | some mapping =>
        { mappings := acc.mappings ++ [mapping]
          successful_mappings := acc.successful_mappings + 1
          high_confidence_mappings :=
            acc.high_confidence_mappings +
              (if (0.8 : ℚ) ≤ mapping.confidence then 1 else 0)
          total_confidence := acc.total_confidence + mapping.confidence }

/-- Result of `_rag_map_to_hpo_terms` (lines 427-430). -/
structure RagMapResult where
  mappings : List HPOMapping
  summary : MappingSummary
deriving DecidableEq

/-- `RAGChineseToHPOTransformer._rag_map_to_hpo_terms` (lines 380-430):
fold the per-term step over the extracted terms, then assemble the summary
with its two guarded divisions. -/
def rag_map_to_hpo_terms (t : RAGTransformer)
    (clinical_terms : List ClinicalTerm) : RagMapResult :=
  let acc := clinical_terms.foldl (rag_map_step t) ⟨[], 0, 0, 0⟩
  { mappings := acc.mappings
    summary :=
      { total_terms := clinical_terms.length
        successfully_mapped := acc.successful_mappings
        high_confidence_mappings := acc.high_confidence_mappings
        average_confidence :=
          if 0 < acc.successful_mappings then
            acc.total_confidence / (acc.successful_mappings : ℚ)
          else 0
        mapping_success_rate :=
          if clinical_terms.isEmpty then 0
          else (acc.successful_mappings : ℚ) / (clinical_terms.length : ℚ) } }

/-- The result dictionary of a successful `transform` (lines 366-376);
wall-clock timing and timestamps are outside the model. -/
structure TransformResult where
  original_text : String
  clinical_terms : List ClinicalTerm
  clinical_summary : ClinicalSummary
  diagnostic_information : DiagnosticInformation
  processing_notes : String
  hpo_mappings : List HPOMapping
  mapping_summary : MappingSummary
deriving DecidableEq

/-- `RAGChineseToHPOTransformer.transform` (lines 349-378): extraction
failure propagates (no `try` here); the mapping stage itself never raises
because every per-term exception is caught inside it. -/
def transform (t : RAGTransformer) (chinese_text : String) :
    Except String TransformResult :=
  (extract_and_process_symptoms t.extractOracle chinese_text).map fun step1 =>
    let step2 := rag_map_to_hpo_terms t step1.clinical_terms
    { original_text := chinese_text
      clinical_terms := step1.clinical_terms
      clinical_summary := step1.clinical_summary
      diagnostic_information := step1.diagnostic_information
      processing_notes := step1.processing_notes
      hpo_mappings := step2.mappings
      mapping_summary := step2.summary }

/-- One batch entry (lines 438-447): the success dictionary, or the
error dictionary carrying the original text and the exception string. -/
inductive BatchEntry where
  | success (result : TransformResult)
  | failure (original_text : String) (error : String)
deriving DecidableEq

/-- `RAGChineseToHPOTransformer.batch_transform` (lines 432-449): each text
is transformed inside a `try`; an exception appends the error dictionary
and the loop continues with the next text. -/
def batch_transform (t : RAGTransformer) (chinese_texts : List String) :
    List BatchEntry :=
  chinese_texts.map fun text =>
    match transform t text with
    | .ok r => .success r
    | .error e => .failure text e

/-! ### Concrete fixtures used by witnesses and counterexamples -/

/-- A concrete extracted clinical term. -/
def termDev : ClinicalTerm :=
  ⟨"fa yu chi huan", "developmental delay", "neurological", 0.9,
   "noted at age 3", "moderate", "chronic"⟩

/-- A concrete retrieved HPO candidate. -/
def candGDD : HPOCandidate :=
  ⟨"HP:0001263", "Global developmental delay",
   "Delayed achievement of developmental milestones", 0.8⟩

/-- A well-behaved parsed selection: picks the presented candidate with
confidence 0.85. -/
def selGDD : HPOSelection :=
  ⟨"HP:0001263", "Global developmental delay", 0.85,
   "closest clinical match", "good"⟩

/-- A selection oracle that always parses to `selGDD`. -/
def okOracle : SelectionOracle := fun _ _ _ => .ok selGDD

/-- A parsed selection whose `selected_hpo_id` is NOT among the presented
candidates (nothing in the code prevents the LLM from answering this). -/
def selRogue : HPOSelection :=
  ⟨"HP:9999999", "Fabricated term", 0.9, "hallucinated id", "poor"⟩

/-- A selection oracle that always parses to `selRogue`. -/
def rogueOracle : SelectionOracle := fun _ _ _ => .ok selRogue

/-- The mapping `select_best_term` assembles from `termDev` and
`selGDD`. -/
def mappingGDD : HPOMapping :=
  ⟨"fa yu chi huan", "developmental delay", "HP:0001263",
   "Global developmental delay", 0.85, "noted at age 3",
   "closest clinical match"⟩

/-- The mapping `select_best_term` assembles from `termDev` and
`selRogue`. -/
def mappingRogue : HPOMapping :=
  ⟨"fa yu chi huan", "developmental delay", "HP:9999999", "Fabricated term",
   0.9, "noted at age 3", "hallucinated id"⟩

/-! ### C1: threshold gate of the Term Selector -/

/-- C1: for a non-empty candidate list whose LLM response parses to `sel`,
`select_best_term` returns a mapping iff `sel.confidence` is at least the
confidence threshold (default 0.7), every returned mapping has confidence
at least the threshold, and a parsed confidence below the threshold yields
`none`. -/
theorem select_best_term_threshold_gate (oracle : SelectionOracle)
    (term : ClinicalTerm) (candidates : List HPOCandidate) (threshold : ℚ)
    (sel : HPOSelection) (hne : candidates ≠ [])
    (hok : oracle term candidates threshold = .ok sel) :
    (select_best_term oracle term candidates threshold ≠ none ↔
      threshold ≤ sel.confidence) ∧
    (∀ m, select_best_term oracle term candidates threshold = some m →
      threshold ≤ m.confidence) ∧
    (sel.confidence < threshold →
      select_best_term oracle term candidates threshold = none) := by
  have hempty : candidates.isEmpty = false := by
    simpa using hne
  have hform : select_best_term oracle term candidates threshold =
      if threshold ≤ sel.confidence then
        some
          { original_chinese := term.chinese
            english_translation := term.english
            hpo_id := sel.selected_hpo_id
            hpo_name := sel.selected_hpo_name
            confidence := sel.confidence
            context := term.context
            reasoning := sel.reasoning }
      else none := by
    simp [select_best_term, hempty, hok]
  rw [hform]
  by_cases h : threshold ≤ sel.confidence
  · refine ⟨by simp [h], ?_, ?_⟩
    · intro m hm
      rw [if_pos h, Option.some_inj] at hm
      subst hm
      exact h
    · intro hc
      exact absurd h (not_le.mpr hc)
  · refine ⟨by simp [h], ?_, ?_⟩
    · intro m hm
      rw [if_neg h] at hm
      simp at hm
    · intro _
      exact if_neg h

/-- C1 witness: with the concrete oracle `okOracle` (parsed confidence
0.85) and the single candidate `candGDD`, the gate theorem is instantiated
at threshold 0.7. -/
theorem select_best_term_threshold_gate_witness :
    (select_best_term okOracle termDev [candGDD] 0.7 ≠ none ↔
      (0.7 : ℚ) ≤ selGDD.confidence) ∧
    (∀ m, select_best_term okOracle termDev [candGDD] 0.7 = some m →
      (0.7 : ℚ) ≤ m.confidence) ∧
    (selGDD.confidence < 0.7 →
      select_best_term okOracle termDev [candGDD] 0.7 = none) :=
  select_best_term_threshold_gate okOracle termDev [candGDD] 0.7 selGDD
    (by simp) rfl

/-! ### C8: empty candidate list short-circuits before the LLM -/

/-- C8: with an empty candidate list, `select_best_term` returns `none` for
every clinical term and every threshold, and the result is identical under
any two selection oracles — the LLM is never consulted. -/
theorem select_best_term_empty_candidates (oracle oracle' : SelectionOracle)
    (term : ClinicalTerm) (threshold : ℚ) :
    select_best_term oracle term [] threshold = none ∧
    select_best_term oracle term [] threshold =
      select_best_term oracle' term [] threshold :=
  ⟨rfl, rfl⟩

/-! ### C10: provenance of the fields of a returned mapping -/

/-- C10: every mapping returned by `select_best_term` copies
`original_chinese`, `english_translation` and `context` verbatim from the
query term, while `hpo_id`, `hpo_name`, `confidence` and `reasoning` come
from the parsed LLM response. -/
theorem select_best_term_provenance (oracle : SelectionOracle)
    (term : ClinicalTerm) (candidates : List HPOCandidate) (threshold : ℚ)
    (m : HPOMapping)
    (h : select_best_term oracle term candidates threshold = some m) :
    m.original_chinese = term.chinese ∧
    m.english_translation = term.english ∧
    m.context = term.context ∧
    ∃ sel, oracle term candidates threshold = .ok sel ∧
      m.hpo_id = sel.selected_hpo_id ∧
      m.hpo_name = sel.selected_hpo_name ∧
      m.confidence = sel.confidence ∧
      m.reasoning = sel.reasoning := by
  unfold select_best_term at h
  split at h
  · simp at h
  · split at h
    · simp at h
    · rename_i sel heq
      split at h
      · rw [Option.some_inj] at h
        subst h
        exact ⟨rfl, rfl, rfl, sel, heq, rfl, rfl, rfl, rfl⟩
      · simp at h

/-- C10 witness: provenance instantiated with the concrete oracle
`okOracle`, the term `termDev` and the candidate `candGDD`. -/
theorem select_best_term_provenance_witness :
    mappingGDD.original_chinese = termDev.chinese ∧
    mappingGDD.english_translation = termDev.english ∧
    mappingGDD.context = termDev.context ∧
    ∃ sel, okOracle termDev [candGDD] 0.7 = .ok sel ∧
      mappingGDD.hpo_id = sel.selected_hpo_id ∧
      mappingGDD.hpo_name = sel.selected_hpo_name ∧
      mappingGDD.confidence = sel.confidence ∧
      mappingGDD.reasoning = sel.reasoning :=
  select_best_term_provenance okOracle termDev [candGDD] 0.7 mappingGDD
    (by norm_num [select_best_term, okOracle, selGDD, termDev, candGDD,
      mappingGDD])

/-! ### C2: the selected id is NOT validated against the candidate set -/

/-- C2 counterexample: the claim "every returned mapping's hpo_id is a
member of the candidate set passed to the selector" is false on the code:
with the concrete oracle `rogueOracle`, whose parsed response names the id
"HP:9999999" that is not among the presented candidates, `select_best_term`
still returns a mapping carrying that id. -/
theorem select_best_term_rogue_id :
    select_best_term rogueOracle termDev [candGDD] 0.7 = some mappingRogue ∧
    mappingRogue.hpo_id ∉ [candGDD].map HPOCandidate.hpo_id := by
  constructor
  · norm_num [select_best_term, rogueOracle, selRogue, termDev, candGDD,
      mappingRogue]
  · simp [mappingRogue, candGDD]

/-- C2 amended: a returned mapping's `hpo_id` is exactly the
`selected_hpo_id` of the parsed LLM response — no membership validation is
performed — so it belongs to the presented candidate set precisely when the
LLM's `selected_hpo_id` does. -/
theorem select_best_term_id_membership (oracle : SelectionOracle)
    (term : ClinicalTerm) (candidates : List HPOCandidate) (threshold : ℚ)
    (m : HPOMapping) (sel : HPOSelection)
    (hok : oracle term candidates threshold = .ok sel)
    (h : select_best_term oracle term candidates threshold = some m) :
    m.hpo_id = sel.selected_hpo_id ∧
    (m.hpo_id ∈ candidates.map HPOCandidate.hpo_id ↔
      sel.selected_hpo_id ∈ candidates.map HPOCandidate.hpo_id) := by
  unfold select_best_term at h
  split at h
  · simp at h
  · split at h
    · simp at h
    · rename_i sel' heq
      rw [hok] at heq
      injection heq with hsel
      subst hsel
      split at h
      · rw [Option.some_inj] at h
        subst h
        exact ⟨rfl, Iff.rfl⟩
      · simp at h

/-- C2 amended witness: with `okOracle` the parsed `selected_hpo_id` is the
candidate id "HP:0001263", and the returned mapping's id is that id. -/
theorem select_best_term_id_membership_witness :
    mappingGDD.hpo_id = selGDD.selected_hpo_id ∧
    (mappingGDD.hpo_id ∈ [candGDD].map HPOCandidate.hpo_id ↔
      selGDD.selected_hpo_id ∈ [candGDD].map HPOCandidate.hpo_id) :=
  select_best_term_id_membership okOracle termDev [candGDD] 0.7 mappingGDD
    selGDD rfl
    (by norm_num [select_best_term, okOracle, selGDD, termDev, candGDD,
      mappingGDD])

/-! ### C6: the distance-to-similarity conversion -/

/-- C6: the conversion `score = 1/(1+distance)` maps distance 0 to exactly
1, is strictly decreasing on non-negative distances, lands in (0, 1] for
every non-negative distance, tends to 0 as the distance grows without
bound, and is exactly the score attached to every candidate built by
`search_hpo_terms`. -/
theorem similarityScore_spec :
    similarityScore 0 = 1 ∧
    (∀ d₁ d₂ : ℚ, 0 ≤ d₁ → d₁ < d₂ →
      similarityScore d₂ < similarityScore d₁) ∧
    (∀ d : ℚ, 0 ≤ d → 0 < similarityScore d ∧ similarityScore d ≤ 1) ∧
    (∀ ε : ℚ, 0 < ε → ∃ D : ℚ, ∀ d : ℚ, D ≤ d → similarityScore d < ε) ∧
    (∀ doc dist, (toCandidate doc dist).score = similarityScore dist) := by
  refine ⟨by norm_num [similarityScore], ?_, ?_, ?_, fun _ _ => rfl⟩
  · intro d₁ d₂ h₁ h₁₂
    have hp₁ : (0 : ℚ) < 1 + d₁ := by linarith
    have hp₂ : (0 : ℚ) < 1 + d₂ := by linarith
    rw [similarityScore, similarityScore, div_lt_div_iff₀ hp₂ hp₁]
    linarith
  · intro d hd
    have hp : (0 : ℚ) < 1 + d := by linarith
    constructor
    · exact div_pos one_pos hp
    · rw [similarityScore, div_le_one hp]
      linarith
  · intro ε hε
    refine ⟨1 / ε, fun d hd => ?_⟩
    have h1 : (0 : ℚ) < 1 / ε := by positivity
    have h2 : (0 : ℚ) < 1 + d := by linarith
    rw [similarityScore, div_lt_iff₀ h2]
    have h3 : ε * (1 / ε) < ε * (1 + d) :=
      mul_lt_mul_of_pos_left (by linarith) hε
    rw [mul_one_div_cancel (ne_of_gt hε)] at h3
    linarith

/-- C6 witness: the conversion instantiated at concrete distances — strict
decrease from distance 1 to distance 3, and the (0, 1] bounds at
distance 4. -/
theorem similarityScore_spec_witness :
    similarityScore 3 < similarityScore 1 ∧
    (0 < similarityScore 4 ∧ similarityScore 4 ≤ 1) :=
  ⟨similarityScore_spec.2.1 1 3 (by norm_num) (by norm_num),
   similarityScore_spec.2.2.1 4 (by norm_num)⟩

/-! ### C7: summary counter invariant -/

/-- One step never decreases `successful_mappings` and adds at most 1. -/
theorem rag_map_step_successful (t : RAGTransformer) (acc : RagAcc)
    (term : ClinicalTerm) :
    acc.successful_mappings ≤ (rag_map_step t acc term).successful_mappings ∧
    (rag_map_step t acc term).successful_mappings ≤
      acc.successful_mappings + 1 := by
  unfold rag_map_step
  split
  · omega
  · split
    · omega
    · split
      · omega
      · simp

/-- One step preserves `high_confidence_mappings ≤ successful_mappings`. -/
theorem rag_map_step_high_le (t : RAGTransformer) (acc : RagAcc)
    (term : ClinicalTerm)
    (h : acc.high_confidence_mappings ≤ acc.successful_mappings) :
    (rag_map_step t acc term).high_confidence_mappings ≤
      (rag_map_step t acc term).successful_mappings := by
  unfold rag_map_step
  split
  · exact h
  · split
    · exact h
    · split
      · exact h
      · simp only
        split <;> omega

/-- Folding the per-term step bounds `successful_mappings` by the number of
processed terms. -/
theorem foldl_rag_map_step_successful_le (t : RAGTransformer)
    (terms : List ClinicalTerm) (acc : RagAcc) :
    (terms.foldl (rag_map_step t) acc).successful_mappings ≤
      acc.successful_mappings + terms.length := by
  induction terms generalizing acc with
  | nil => simp
  | cons term rest ih =>
    have hstep := (rag_map_step_successful t acc term).2
    have := ih (rag_map_step t acc term)
    simpa [List.foldl_cons, List.length_cons] using (by omega : _)

/-- Folding the per-term step preserves the high-confidence bound. -/
theorem foldl_rag_map_step_high_le (t : RAGTransformer)
    (terms : List ClinicalTerm) (acc : RagAcc)
    (h : acc.high_confidence_mappings ≤ acc.successful_mappings) :
    (terms.foldl (rag_map_step t) acc).high_confidence_mappings ≤
      (terms.foldl (rag_map_step t) acc).successful_mappings := by
  induction terms generalizing acc with
  | nil => simpa
  | cons term rest ih =>
    exact ih (rag_map_step t acc term) (rag_map_step_high_le t acc term h)

/-- C7: in every summary produced by the mapping stage,
`high_confidence_mappings ≤ successfully_mapped ≤ total_terms`. -/
theorem summary_counter_invariant (t : RAGTransformer)
    (terms : List ClinicalTerm) :
    (rag_map_to_hpo_terms t terms).summary.high_confidence_mappings ≤
      (rag_map_to_hpo_terms t terms).summary.successfully_mapped ∧
    (rag_map_to_hpo_terms t terms).summary.successfully_mapped ≤
      (rag_map_to_hpo_terms t terms).summary.total_terms := by
  constructor
  · exact foldl_rag_map_step_high_le t terms ⟨[], 0, 0, 0⟩ le_rfl
  · simpa using foldl_rag_map_step_successful_le t terms ⟨[], 0, 0, 0⟩

/-! ### More concrete fixtures: whole-transformer environments -/

/-- A parsed extraction with zero symptoms. -/
def emptyExtraction : SymptomExtractionResult :=
  ⟨[], ⟨[], [], [], [], [], [], [], []⟩, ⟨[], [], [], [], []⟩,
   "no symptoms found"⟩

/-- A loaded vector store whose search always returns one hit at
distance 0.5. -/
def storeOk : HPOVectorStore :=
  ⟨true, fun _ _ => .ok
    [(⟨some "HP:0001263", some "Global developmental delay",
       "Delayed achievement of developmental milestones"⟩, 0.5)]⟩

/-- A loaded vector store whose underlying search always raises. -/
def storeErr : HPOVectorStore := ⟨true, fun _ _ => .error "index failure"⟩

/-- A transformer whose extraction always yields zero symptoms. -/
def tEmpty : RAGTransformer := ⟨fun _ => .ok emptyExtraction, okOracle, storeOk⟩

/-- A clinical term on which the selection LLM call will fail. -/
def termBad : ClinicalTerm :=
  ⟨"huai", "uninterpretable term", "other", 0.5, "", "", ""⟩

/-- A selection oracle that fails exactly on `termBad` and otherwise parses
to `selGDD`. -/
def mixedOracle : SelectionOracle := fun term _ _ =>
  if term = termBad then .error "malformed selector response" else .ok selGDD

/-- A transformer built over `mixedOracle` and the working store. -/
def tMixed : RAGTransformer :=
  ⟨fun _ => .ok emptyExtraction, mixedOracle, storeOk⟩

/-- A transformer over the raising store. -/
def tErrStore : RAGTransformer :=
  ⟨fun _ => .ok emptyExtraction, okOracle, storeErr⟩

/-- An extraction oracle that fails exactly on the text "doc2". -/
def extractBatchOracle : ExtractionOracle := fun text =>
  if text = "doc2" then .error "malformed extraction"
  else .ok emptyExtraction

/-- A transformer over `extractBatchOracle`. -/
def tBatch : RAGTransformer := ⟨extractBatchOracle, okOracle, storeOk⟩

/-! ### C4: zero extracted terms -/

/-- C4: when extraction parses but yields zero symptoms, `transform`
succeeds with an empty mapping list and an all-zero summary (no
division-by-zero), and in every summary the average confidence falls back
to 0 whenever `successfully_mapped` is 0 (the guarded denominator). -/
theorem zero_terms_result (t : RAGTransformer) (text : String)
    (res : SymptomExtractionResult) (hok : t.extractOracle text = .ok res)
    (hempty : res.extracted_symptoms = []) :
    (∃ r, transform t text = .ok r ∧ r.hpo_mappings = [] ∧
      r.mapping_summary = ⟨0, 0, 0, 0, 0⟩) ∧
    (∀ terms, (rag_map_to_hpo_terms t terms).summary.successfully_mapped = 0 →
      (rag_map_to_hpo_terms t terms).summary.average_confidence = 0) := by
  constructor
  · have h1 : transform t text = .ok
        { original_text := text
          clinical_terms := []
          clinical_summary := res.clinical_summary
          diagnostic_information := res.diagnostic_information
          processing_notes := res.processing_notes
          hpo_mappings := []
          mapping_summary := ⟨0, 0, 0, 0, 0⟩ } := by
      simp [transform, extract_and_process_symptoms, hok, hempty, Except.map,
        rag_map_to_hpo_terms]
    exact ⟨_, h1, rfl, rfl⟩
  · intro terms hzero
    simp only [rag_map_to_hpo_terms] at hzero ⊢
    rw [hzero]
    simp

/-- C4 witness: the zero-terms case instantiated with the transformer
`tEmpty`, whose extraction parses "doc" to zero symptoms. -/
theorem zero_terms_result_witness :
    (∃ r, transform tEmpty "doc" = .ok r ∧ r.hpo_mappings = [] ∧
      r.mapping_summary = ⟨0, 0, 0, 0, 0⟩) ∧
    (∀ terms,
      (rag_map_to_hpo_terms tEmpty terms).summary.successfully_mapped = 0 →
      (rag_map_to_hpo_terms tEmpty terms).summary.average_confidence = 0) :=
  zero_terms_result tEmpty "doc" emptyExtraction rfl rfl

/-! ### C5 and C9: per-term failure isolation -/

/-- A term whose per-term step is a no-op can be dropped from the loop. -/
theorem foldl_rag_map_step_skip (t : RAGTransformer) (bad : ClinicalTerm)
    (hbad : ∀ acc, rag_map_step t acc bad = acc)
    (pre post : List ClinicalTerm) (init : RagAcc) :
    (pre ++ bad :: post).foldl (rag_map_step t) init =
      (pre ++ post).foldl (rag_map_step t) init := by
  rw [List.foldl_append, List.foldl_append, List.foldl_cons, hbad]

/-- A term on which every selection LLM call fails leaves the loop state
unchanged. -/
theorem rag_map_step_of_select_error (t : RAGTransformer)
    (bad : ClinicalTerm)
    (hbad : ∀ candidates, ∃ e, t.selectOracle bad candidates 0.7 = .error e)
    (acc : RagAcc) : rag_map_step t acc bad = acc := by
  unfold rag_map_step
  split
  · rfl
  · rename_i candidates heq
    split
    · rfl
    · rename_i hne
      obtain ⟨e, he⟩ := hbad candidates
      have hsel : select_best_term t.selectOracle bad candidates 0.7 = none := by
        have hne' : candidates.isEmpty = false := by
          simpa using hne
        simp [select_best_term, hne', he]
      rw [hsel]

/-- C5: if every selection LLM call for one term `bad` fails, the document
mapping run over `pre ++ bad :: post` produces exactly the mappings and
success count of the run without `bad`, while `bad` still counts in
`total_terms` — a term-level failure never becomes a document failure. -/
theorem term_failure_isolation (t : RAGTransformer)
    (pre post : List ClinicalTerm) (bad : ClinicalTerm)
    (hbad : ∀ candidates, ∃ e, t.selectOracle bad candidates 0.7 = .error e) :
    (rag_map_to_hpo_terms t (pre ++ bad :: post)).mappings =
      (rag_map_to_hpo_terms t (pre ++ post)).mappings ∧
    (rag_map_to_hpo_terms t (pre ++ bad :: post)).summary.successfully_mapped =
      (rag_map_to_hpo_terms t (pre ++ post)).summary.successfully_mapped ∧
    (rag_map_to_hpo_terms t (pre ++ bad :: post)).summary.total_terms =
      (pre ++ post).length + 1 := by
  have hskip := foldl_rag_map_step_skip t bad
    (rag_map_step_of_select_error t bad hbad) pre post ⟨[], 0, 0, 0⟩
  refine ⟨?_, ?_, ?_⟩
  · simp only [rag_map_to_hpo_terms]
    rw [hskip]
  · simp only [rag_map_to_hpo_terms]
    rw [hskip]
  · simp only [rag_map_to_hpo_terms]
    simp [List.length_append]
    omega

/-- C5 witness: isolation instantiated on the three-term list
`[termDev, termBad, termDev]` under `tMixed`, whose selection oracle fails
exactly on `termBad`. -/
theorem term_failure_isolation_witness :
    (rag_map_to_hpo_terms tMixed ([termDev] ++ termBad :: [termDev])).mappings =
      (rag_map_to_hpo_terms tMixed ([termDev] ++ [termDev])).mappings ∧
    (rag_map_to_hpo_terms tMixed
        ([termDev] ++ termBad :: [termDev])).summary.successfully_mapped =
      (rag_map_to_hpo_terms tMixed
        ([termDev] ++ [termDev])).summary.successfully_mapped ∧
    (rag_map_to_hpo_terms tMixed
        ([termDev] ++ termBad :: [termDev])).summary.total_terms =
      ([termDev] ++ [termDev]).length + 1 :=
  term_failure_isolation tMixed [termDev] [termDev] termBad
    (fun _ => ⟨"malformed selector response", by simp [tMixed, mixedOracle]⟩)

/-- C9: a raising similarity search is recovered as an empty candidate
list (`search_hpo_terms` fails open), and the mapping loop treats the
affected term as unmapped — the run over `pre ++ term :: post` yields the
mappings and success count of the run without it, never a document
error. -/
theorem retrieval_fails_open (t : RAGTransformer)
    (pre post : List ClinicalTerm) (term : ClinicalTerm) (e : String)
    (hload : t.vectorstore.loaded = true)
    (herr : t.vectorstore.similarity_search_with_score term.english 10 =
      .error e) :
    search_hpo_terms t.vectorstore term.english 10 = .ok [] ∧
    (rag_map_to_hpo_terms t (pre ++ term :: post)).mappings =
      (rag_map_to_hpo_terms t (pre ++ post)).mappings ∧
    (rag_map_to_hpo_terms t (pre ++ term :: post)).summary.successfully_mapped =
      (rag_map_to_hpo_terms t (pre ++ post)).summary.successfully_mapped := by
  have hsearch : search_hpo_terms t.vectorstore term.english 10 = .ok [] := by
    simp [search_hpo_terms, hload, herr]
  have hstep : ∀ acc, rag_map_step t acc term = acc := by
    intro acc
    simp [rag_map_step, hsearch]
  have hskip := foldl_rag_map_step_skip t term hstep pre post ⟨[], 0, 0, 0⟩
  refine ⟨hsearch, ?_, ?_⟩
  · simp only [rag_map_to_hpo_terms]
    rw [hskip]
  · simp only [rag_map_to_hpo_terms]
    rw [hskip]

/-- C9 witness: fails-open behaviour instantiated under `tErrStore`, whose
underlying similarity search always raises, with `termDev` between two
empty sublists. -/
theorem retrieval_fails_open_witness :
    search_hpo_terms tErrStore.vectorstore termDev.english 10 = .ok [] ∧
    (rag_map_to_hpo_terms tErrStore ([] ++ termDev :: [])).mappings =
      (rag_map_to_hpo_terms tErrStore ([] ++ [])).mappings ∧
    (rag_map_to_hpo_terms tErrStore
        ([] ++ termDev :: [])).summary.successfully_mapped =
      (rag_map_to_hpo_terms tErrStore
        ([] ++ [])).summary.successfully_mapped :=
  retrieval_fails_open tErrStore [] [] termDev "index failure" rfl rfl

/-! ### C3: batch isolation -/

/-- C3: `batch_transform` returns exactly one entry per input text in input
order; an input whose extraction fails yields the error entry carrying that
text and the error string, and an input whose `transform` succeeds yields
its normal result — independently of the other inputs. -/
theorem batch_transform_isolation (t : RAGTransformer) (texts : List String) :
    (batch_transform t texts).length = texts.length ∧
    (∀ (i : ℕ) (txt : String), texts[i]? = some txt →
      (∀ e, t.extractOracle txt = .error e →
        (batch_transform t texts)[i]? = some (.failure txt e)) ∧
      (∀ r, transform t txt = .ok r →
        (batch_transform t texts)[i]? = some (.success r))) := by
  constructor
  · simp [batch_transform]
  · intro i txt htxt
    constructor
    · intro e he
      have htr : transform t txt = .error e := by
        simp [transform, extract_and_process_symptoms, he, Except.map]
      simp [batch_transform, List.getElem?_map, htxt, htr]
    · intro r hr
      simp [batch_transform, List.getElem?_map, htxt, hr]

/-- C3 witness: a three-document batch under `tBatch`, whose extraction
fails exactly on "doc2": three entries come back and entry 1 is the error
entry for "doc2". -/
theorem batch_transform_isolation_witness :
    (batch_transform tBatch ["doc1", "doc2", "doc3"]).length = 3 ∧
    (batch_transform tBatch ["doc1", "doc2", "doc3"])[1]? =
      some (.failure "doc2" "malformed extraction") := by
  have h := batch_transform_isolation tBatch ["doc1", "doc2", "doc3"]
  exact ⟨h.1, (h.2 1 "doc2" rfl).1 "malformed extraction"
    (by simp [tBatch, extractBatchOracle])⟩

end PhenoRAG
